import Mathlib

/-!
# Verification of the visual-compute-engine graph rule interpreter

A shallow embedding of the graph-based rule interpreter from
`src/compute/src/rules/graph.rs` (types from `src/compute/src/rules/types.rs`,
result dispatch from `src/compute/src/main.rs`), together with theorems about
its traversal, condition evaluation, rate-limit policy and header-mutation
behaviour.

Modelling conventions:
* Rust `String` is Lean `String`; machine integers (`u16`/`u32`/`u64`) are
  `Nat` (no arithmetic in the modelled code can overflow: the only arithmetic
  is `limit / 60`, which only shrinks).
* The Fastly platform (geo lookup, device lookup, the ERL rate service, the
  `regex` and `ipnet` crates, `f64` parsing, environment variables) is the
  external world: it is modelled by a record of pure functions `Ext` that is
  held fixed, matching the spec's "external-service responses held fixed".
* Rust string helpers (`to_uppercase`, `trim`, `split(',')`, `contains`,
  `find('?')`, ...) are re-implemented over `String.data` so that every
  definition evaluates inside the kernel.  `to_uppercase`/`to_lowercase` are
  modelled ASCII-only (`Char.toUpper`), and `trim` uses `Char.isWhitespace`;
  the difference to Rust's Unicode versions is irrelevant to the claims.
* The interpreter's `println!` log of visited nodes is modelled by the
  `visited` trace in the evaluation context; the `RefCell<Vec<HeaderMod>>`
  is the `header_mods` component, threaded explicitly.
* `HashMap` iteration order (used by `evaluate` to find the request node) is
  not deterministic in Rust; `evaluateWithOrder` therefore takes the
  iteration order as a parameter, and `evaluate` instantiates it with the
  insertion order of the map entries.
* Recursion through `follow_path`/`follow_outgoing` is unbounded in the
  source; it is modelled with explicit fuel, `none` meaning the Rust code
  does not terminate within the given number of node visits.
-/

namespace VCE

/-! ## String helpers (Rust std string operations, kernel-executable) -/

/-- Rust `char::to_uppercase` restricted to ASCII, as Lean's `Char.toUpper`. -/
def toUpperStr (s : String) : String := ⟨s.data.map Char.toUpper⟩

/-- Rust `str::to_lowercase` restricted to ASCII. -/
def toLowerStr (s : String) : String := ⟨s.data.map Char.toLower⟩

/-- Rust `str::trim` (whitespace from both ends). -/
def trimStr (s : String) : String :=
  ⟨((s.data.dropWhile Char.isWhitespace).reverse.dropWhile Char.isWhitespace).reverse⟩

/-- Prefix test on character lists (Rust `str::starts_with`). -/
def charsStartWith : List Char → List Char → Bool
  | [], _ => true
  | _ :: _, [] => false
  | a :: as_, b :: bs => a == b && charsStartWith as_ bs

/-- Rust `str::starts_with`. -/
def strStartsWith (s pre : String) : Bool := charsStartWith pre.data s.data

/-- Rust `str::ends_with`. -/
def strEndsWith (s suf : String) : Bool := charsStartWith suf.data.reverse s.data.reverse

/-- Substring containment on character lists. -/
def listContainsAux (needle : List Char) : List Char → Bool
  | [] => charsStartWith needle []
  | c :: rest => charsStartWith needle (c :: rest) || listContainsAux needle rest

/-- Rust `str::contains` with a string pattern. -/
def strContains (s sub : String) : Bool := listContainsAux sub.data s.data

/-- Rust `str::split(c)` — splits at every occurrence, keeping empty pieces. -/
def splitOnCharAux (c : Char) : List Char → List Char → List String
  | [], acc => [⟨acc.reverse⟩]
  | x :: xs, acc =>
    if x == c then ⟨acc.reverse⟩ :: splitOnCharAux c xs []
    else splitOnCharAux c xs (x :: acc)

/-- Rust `str::split(c)` as a list of pieces. -/
def splitOnChar (s : String) (c : Char) : List String := splitOnCharAux c s.data []

/-- Rust `url.find('?').map(|i| url[i..])`: the query part of a URL string,
including the leading `?`. -/
def queryPart : List Char → Option String
  | [] => none
  | c :: rest => if c == '?' then some ⟨c :: rest⟩ else queryPart rest

/-- Rust `format!("{:02}", m)` for a natural number. -/
def pad2 (n : Nat) : String := if n < 10 then "0" ++ toString n else toString n

/-- Rust `bool::to_string()`. -/
def boolStr (b : Bool) : String := if b then "true" else "false"

/-! ## The external world (Fastly platform services), held fixed -/

/-- Result of `fastly::geo::geo_lookup`, with every accessor pre-rendered to
the string the interpreter turns it into (`to_string()` / `format!("{:?}")`),
since only those strings are observable. -/
structure Geo where
  as_number : String
  country_code : String
  country_code3 : String
  continent : String
  city : String
  region : Option String
  postal_code : String
  latitude : String
  longitude : String
  metro_code : String
  utc_offset : Option (Int × Int)
  conn_speed : String
  conn_type : String
  proxy_type : String
  proxy_description : String
deriving DecidableEq

/-- Result of `fastly::device_detection::lookup`. -/
structure Device where
  is_bot : Option Bool
  is_mobile : Option Bool
  is_tablet : Option Bool
  is_desktop : Option Bool
  is_smarttv : Option Bool
  is_gameconsole : Option Bool
  device_name : Option String
  brand : Option String
  model : Option String
  user_agent_name : Option String
  user_agent_major_version : Option String
  user_agent_minor_version : Option String
  os_name : Option String
  os_major_version : Option String
  os_minor_version : Option String
deriving DecidableEq

/-- Models `fastly::erl::RateWindow` (variants used by the interpreter). -/
inductive RateWindow where
  | OneSec
  | TenSecs
  | SixtySecs
deriving DecidableEq

/-- The fixed external-service responses: geo lookup (by client IP string),
device lookup (by user-agent), the `FASTLY_POP` environment variable, the
ERL rate service `check_rate(entry, delta, window, limit, ttl_secs)`, the
`regex` crate (`none` = pattern failed to compile), IP/CIDR parsing from
`std::net`/`ipnet`, and `str::parse::<f64>`. -/
structure Ext where
  geoLookup : String → Option Geo
  deviceLookup : String → Option Device
  envPop : Option String
  checkRate : String → Nat → RateWindow → Nat → Nat → Except Unit Bool
  regexIsMatch : String → String → Option Bool
  parseIp : String → Option String
  cidrContains : String → String → Bool
  parsef64 : String → Option Float

/-! ## The incoming request -/

/-- The parts of `fastly::Request` the interpreter reads.  `clientIp` is
`get_client_ip_addr()` already rendered to a string; `ddosDetected` is
`get_client_ddos_detected()`. -/
structure Request where
  path : String
  urlStr : String
  methodStr : String
  headers : List (String × String)
  clientIp : Option String
  ddosDetected : Option Bool
deriving DecidableEq

/-- Models `Request::get_header_str` — header names compare case-insensitively
(http `HeaderMap` semantics). -/
def Request.get_header_str (r : Request) (name : String) : Option String :=
  (r.headers.find? (fun p => toLowerStr p.1 == toLowerStr name)).map (fun p => p.2)

/-! ## Node payload types (`src/compute/src/rules/types.rs`) -/

structure ConditionNodeData where
  field : String
  operator : String
  value : String
  header_name : Option String
deriving DecidableEq

structure RuleGroupCondition where
  id : String
  field : String
  operator : String
  value : String
  header_name : Option String
deriving DecidableEq

structure RuleGroupNodeData where
  name : Option String
  logic : String
  conditions : List RuleGroupCondition
deriving DecidableEq

structure ActionNodeData where
  action : String
  status_code : Option Nat
  message : Option String
  url : Option String
  preserve_query : Option Bool
deriving DecidableEq

structure BackendNodeData where
  name : String
  host : String
  port : Option Nat
  connect_timeout : Option Nat
  first_byte_timeout : Option Nat
  between_bytes_timeout : Option Nat
  use_tls : Option Bool
  verify_certificate : Option Bool
  sni_hostname : Option String
  ca_certificate : Option String
  client_certificate : Option String
  client_key : Option String
  min_tls_version : Option String
  max_tls_version : Option String
  override_host : Option String
  prefer_ipv6 : Option Bool
  enable_pooling : Option Bool
  keepalive_time : Option Nat
  max_connections : Option Nat
  max_connection_uses : Option Nat
  max_connection_lifetime : Option Nat
  tcp_keepalive : Option Bool
  tcp_keepalive_time : Option Nat
  tcp_keepalive_interval : Option Nat
  tcp_keepalive_probes : Option Nat
  edge_auth_secret : Option String
deriving DecidableEq

structure RateLimitNodeData where
  limit : Nat
  window_unit : String
  key_by : String
  header_name : Option String
deriving DecidableEq

structure HeaderNodeData where
  operation : String
  name : String
  value : Option String
deriving DecidableEq

structure RedirectNodeData where
  url : String
  status_code : Option Nat
  preserve_query : Option Bool
deriving DecidableEq

/-- A node's `data: serde_json::Value` payload, abstracted to the outcome of
per-kind `serde_json::from_value` deserialization: parsing a payload as kind
`K` succeeds exactly when the payload is `K`'s constructor; `malformed`
stands for any JSON value that matches no kind's schema. -/
inductive NodeData where
  | ruleGroup (d : RuleGroupNodeData)
  | condition (d : ConditionNodeData)
  | action (d : ActionNodeData)
  | backend (d : BackendNodeData)
  | rateLimit (d : RateLimitNodeData)
  | header (d : HeaderNodeData)
  | redirect (d : RedirectNodeData)
  | malformed
deriving DecidableEq

/-- Per-kind parse `serde_json::from_value::<RuleGroupNodeData>`. -/
def parseRuleGroup : NodeData → Option RuleGroupNodeData
  | .ruleGroup d => some d
  | _ => none

/-- Per-kind parse `serde_json::from_value::<ConditionNodeData>`. -/
def parseCondition : NodeData → Option ConditionNodeData
  | .condition d => some d
  | _ => none

/-- Per-kind parse `serde_json::from_value::<ActionNodeData>`. -/
def parseAction : NodeData → Option ActionNodeData
  | .action d => some d
  | _ => none

/-- Per-kind parse `serde_json::from_value::<BackendNodeData>`. -/
def parseBackend : NodeData → Option BackendNodeData
  | .backend d => some d
  | _ => none

/-- Per-kind parse `serde_json::from_value::<RateLimitNodeData>`. -/
def parseRateLimit : NodeData → Option RateLimitNodeData
  | .rateLimit d => some d
  | _ => none

/-- Per-kind parse `serde_json::from_value::<HeaderNodeData>`. -/
def parseHeader : NodeData → Option HeaderNodeData
  | .header d => some d
  | _ => none

/-- Per-kind parse `serde_json::from_value::<RedirectNodeData>`. -/
def parseRedirect : NodeData → Option RedirectNodeData
  | .redirect d => some d
  | _ => none

/-! ## Graph structure (`types.rs`) -/

/-- Models `GraphNode` — the layout-only `position` field is ignored by evaluation
and omitted. -/
structure GraphNode where
  id : String
  node_type : String
  data : NodeData
deriving DecidableEq

structure GraphEdge where
  id : String
  source : String
  target : String
  source_handle : Option String
  target_handle : Option String
  edge_type : Option String
deriving DecidableEq

structure GraphPayload where
  nodes : List GraphNode
  edges : List GraphEdge
deriving DecidableEq

/-! ## Interpreter results and state (`graph.rs`) -/

inductive GraphResult where
  | Route (data : BackendNodeData)
  | Block (status_code : Nat) (message : String)
  | Redirect (url : String) (status_code : Nat) (preserve_query : Bool)
  | Allow
  | NoMatch
deriving DecidableEq

inductive HeaderMod where
  | set (name : String) (value : String)
  | append (name : String) (value : String)
  | remove (name : String)
deriving DecidableEq

/-- Per-evaluation interpreter state: the collected header modifications
(`header_mods: RefCell<Vec<HeaderMod>>`) and the trace of evaluated node ids
(the `[Graph] Evaluating node ...` log lines). -/
structure EvalCtx where
  header_mods : List HeaderMod
  visited : List String
deriving DecidableEq

/-! ## Interpreter indices (`GraphInterpreter::new`) -/

/-- One `HashMap::insert` into the node index: a later node with the same id
overwrites the earlier entry. -/
def insertNode (m : List GraphNode) (n : GraphNode) : List GraphNode :=
  if m.any (fun x => x.id == n.id) then
    m.map (fun x => if x.id == n.id then n else x)
  else m ++ [n]

/-- The entries of the `nodes: HashMap<String, &GraphNode>` index built by
`GraphInterpreter::new`, in insertion order. -/
def nodeEntries (g : GraphPayload) : List GraphNode :=
  g.nodes.foldl insertNode []

/-- Models `self.nodes.get(node_id)`. -/
def lookupNode (g : GraphPayload) (i : String) : Option GraphNode :=
  (nodeEntries g).find? (fun n => n.id == i)

/-- One step of building `edges_from`:
`edges_from.entry(edge.source).or_default().push(edge)`. -/
def insertEdge (m : List (String × List GraphEdge)) (e : GraphEdge) :
    List (String × List GraphEdge) :=
  match m with
  | [] => [(e.source, [e])]
  | (k, v) :: rest =>
    if k == e.source then (k, v ++ [e]) :: rest else (k, v) :: insertEdge rest e

/-- The `edges_from: HashMap<String, Vec<&GraphEdge>>` index. -/
def edgesFromMap (g : GraphPayload) : List (String × List GraphEdge) :=
  g.edges.foldl insertEdge []

/-- Models `self.edges_from.get(node_id)`. -/
def lookupEdges (g : GraphPayload) (i : String) : Option (List GraphEdge) :=
  ((edgesFromMap g).find? (fun p => p.1 == i)).map (fun p => p.2)

/-- Lookup in the `edges_from` association list, defaulting to no edges. -/
def edgesValOf (m : List (String × List GraphEdge)) (a : String) : List GraphEdge :=
  ((m.find? (fun p => p.1 == a)).map (fun p => p.2)).getD []

/-- Whether the graph contains a `rateLimit` node — `GraphInterpreter::new`
opens the ERL rate limiter exactly in this case, so `self.rate_limiter`
is `Some` iff this holds. -/
def hasRateLimiter (g : GraphPayload) : Bool :=
  g.nodes.any (fun n => n.node_type == "rateLimit")

/-! ## Field resolver (`GraphInterpreter::get_field_value`) -/

/-- Models `GraphInterpreter::get_geo` — the per-request cache is semantically
transparent here because `Ext.geoLookup` is a fixed function. -/
def get_geo (ext : Ext) (req : Request) : Option Geo :=
  req.clientIp.bind ext.geoLookup

/-- Models `GraphInterpreter::get_device`. -/
def get_device (ext : Ext) (req : Request) : Option Device :=
  ext.deviceLookup ((req.get_header_str "user-agent").getD "")

/-- Rendering of `utc_offset` from `(h, m)`:
`if m == 0 { format!("{}", h) } else { format!("{}:{:02}", h, m.abs()) }`. -/
def utcOffsetStr (p : Int × Int) : String :=
  if p.2 == 0 then toString p.1 else toString p.1 ++ ":" ++ pad2 p.2.natAbs

/-- Models `GraphInterpreter::get_field_value`: resolve a symbolic field name to a
string value from the request and platform lookups. -/
def get_field_value (ext : Ext) (field : String) (req : Request) : Option String :=
  match field with
  | "path" => some req.path
  | "query" => queryPart req.urlStr.data
  | "method" => some req.methodStr
  | "host" =>
    (req.get_header_str "host").orElse fun _ => req.get_header_str "fastly-orig-host"
  | "scheme" => (req.get_header_str "x-forwarded-proto").orElse fun _ => some "https"
  | "clientIp" | "client-ip" | "ip" =>
    (req.clientIp.orElse fun _ => req.get_header_str "fastly-client-ip").orElse fun _ =>
      (req.get_header_str "x-forwarded-for").map fun s =>
        trimStr (((splitOnChar s ',').head?).getD s)
  | "asn" =>
    ((get_geo ext req).map fun g => g.as_number).orElse fun _ =>
      req.get_header_str "fastly-client-geo-asn"
  | "datacenter" | "pop" => (req.get_header_str "fastly-pop").orElse fun _ => ext.envPop
  | "ddosDetected" => req.ddosDetected.map boolStr
  | "country" =>
    ((get_geo ext req).map fun g => g.country_code).orElse fun _ =>
      req.get_header_str "fastly-client-geo-country"
  | "countryCode3" => (get_geo ext req).map fun g => g.country_code3
  | "continent" =>
    ((get_geo ext req).map fun g => g.continent).orElse fun _ =>
      req.get_header_str "fastly-client-geo-continent"
  | "city" =>
    ((get_geo ext req).map fun g => g.city).orElse fun _ =>
      req.get_header_str "fastly-client-geo-city"
  | "region" => (get_geo ext req).bind fun g => g.region
  | "postalCode" => (get_geo ext req).map fun g => g.postal_code
  | "latitude" => (get_geo ext req).map fun g => g.latitude
  | "longitude" => (get_geo ext req).map fun g => g.longitude
  | "metroCode" => (get_geo ext req).map fun g => g.metro_code
  | "utcOffset" => (get_geo ext req).bind fun g => g.utc_offset.map utcOffsetStr
  | "connSpeed" => (get_geo ext req).map fun g => g.conn_speed
  | "connType" => (get_geo ext req).map fun g => g.conn_type
  | "proxyType" => (get_geo ext req).map fun g => g.proxy_type
  | "proxyDescription" => (get_geo ext req).map fun g => g.proxy_description
  | "isHostingProvider" =>
    ((get_geo ext req).map fun g =>
      boolStr (strContains (toLowerStr g.proxy_description) "hosting")).orElse
      fun _ => some "false"
  | "isBot" =>
    ((get_device ext req).bind fun d => d.is_bot.map boolStr).orElse fun _ => some "false"
  | "botName" =>
    (get_device ext req).bind fun d =>
      if d.is_bot.getD false then d.device_name else none
  | "isMobile" =>
    ((get_device ext req).bind fun d => d.is_mobile.map boolStr).orElse fun _ => some "false"
  | "isTablet" =>
    ((get_device ext req).bind fun d => d.is_tablet.map boolStr).orElse fun _ => some "false"
  | "isDesktop" =>
    ((get_device ext req).bind fun d => d.is_desktop.map boolStr).orElse fun _ => some "false"
  | "isSmartTV" =>
    ((get_device ext req).bind fun d => d.is_smarttv.map boolStr).orElse fun _ => some "false"
  | "isGameConsole" =>
    ((get_device ext req).bind fun d => d.is_gameconsole.map boolStr).orElse
      fun _ => some "false"
  | "deviceName" => (get_device ext req).bind fun d => d.device_name
  | "deviceBrand" => (get_device ext req).bind fun d => d.brand
  | "deviceModel" => (get_device ext req).bind fun d => d.model
  | "browserName" => (get_device ext req).bind fun d => d.user_agent_name
  | "browserVersion" =>
    (get_device ext req).bind fun d =>
      d.user_agent_major_version.map fun major =>
        major ++ "." ++ (d.user_agent_minor_version.getD "0")
  | "osName" => (get_device ext req).bind fun d => d.os_name
  | "osVersion" =>
    (get_device ext req).bind fun d =>
      d.os_major_version.map fun major => major ++ "." ++ (d.os_minor_version.getD "0")
  | "userAgent" | "user-agent" => req.get_header_str "user-agent"
  | "referer" | "referrer" => req.get_header_str "referer"
  | "accept" => req.get_header_str "accept"
  | "acceptLanguage" | "accept-language" => req.get_header_str "accept-language"
  | "acceptEncoding" | "accept-encoding" => req.get_header_str "accept-encoding"
  | "contentType" | "content-type" => req.get_header_str "content-type"
  | "cacheControl" | "cache-control" => req.get_header_str "cache-control"
  | "xForwardedFor" | "x-forwarded-for" => req.get_header_str "x-forwarded-for"
  | "xForwardedProto" | "x-forwarded-proto" => req.get_header_str "x-forwarded-proto"
  | "xRequestedWith" | "x-requested-with" => req.get_header_str "x-requested-with"
  | "tlsVersion" | "tls-version" =>
    (req.get_header_str "fastly-ssl-protocol").orElse fun _ =>
      req.get_header_str "tls-client-protocol"
  | "tlsCipher" | "tls-cipher" =>
    (req.get_header_str "fastly-ssl-cipher").orElse fun _ =>
      req.get_header_str "tls-client-cipher"
  | "ja3" =>
    (req.get_header_str "fastly-client-ja3-md5").orElse fun _ =>
      req.get_header_str "tls-ja3-md5"
  | "ja4" =>
    (req.get_header_str "fastly-client-ja4").orElse fun _ => req.get_header_str "tls-ja4"
  | "h2Fingerprint" | "h2-fingerprint" => req.get_header_str "fastly-client-h2-fingerprint"
  | "ohFingerprint" | "oh-fingerprint" => req.get_header_str "fastly-client-oh-fingerprint"
  | _ => req.get_header_str field

/-! ## Condition evaluator (`evaluate_condition`, `evaluate_rule_group`) -/

/-- The operator dispatch of `GraphInterpreter::evaluate_condition`, applied
to the resolved field value. -/
def applyOperator (ext : Ext) (operator value : String) (field_value : Option String) :
    Bool :=
  let field_value_str := field_value.getD ""
  match operator with
  | "equals" => field_value_str == value
  | "startsWith" | "starts" => strStartsWith field_value_str value
  | "endsWith" | "ends" => strEndsWith field_value_str value
  | "contains" => strContains field_value_str value
  | "notContains" => !(strContains field_value_str value)
  | "notEquals" | "!=" => field_value_str != value
  | "in" => (splitOnChar value ',').any fun v => field_value_str == trimStr v
  | "notIn" | "!in" => !((splitOnChar value ',').any fun v => field_value_str == trimStr v)
  | "matches" => (ext.regexIsMatch value field_value_str).getD false
  | "inCidr" =>
    match field_value with
    | some ip_str =>
      match ext.parseIp ip_str with
      | some ip => (splitOnChar value ',').any fun c => ext.cidrContains (trimStr c) ip
      | none => false
    | none => false
  | "greaterThan" | ">" =>
    match ext.parsef64 field_value_str, ext.parsef64 value with
    | some a, some b => decide (a > b)
    | _, _ => false
  | "lessThan" | "<" =>
    match ext.parsef64 field_value_str, ext.parsef64 value with
    | some a, some b => decide (a < b)
    | _, _ => false
  | "greaterOrEqual" | ">=" =>
    match ext.parsef64 field_value_str, ext.parsef64 value with
    | some a, some b => decide (a ≥ b)
    | _, _ => false
  | "lessOrEqual" | "<=" =>
    match ext.parsef64 field_value_str, ext.parsef64 value with
    | some a, some b => decide (a ≤ b)
    | _, _ => false
  | "exists" => field_value.isSome && !field_value_str.isEmpty
  | "notExists" => field_value.isNone || field_value_str.isEmpty
  | _ => false

/-- Models `GraphInterpreter::evaluate_condition`: for `field == "header"` the
effective field is the configured `headerName`, defaulting to the literal
string `"header"` when absent. -/
def evaluate_condition (ext : Ext) (data : ConditionNodeData) (req : Request) : Bool :=
  let effective_field :=
    if data.field == "header" then data.header_name.getD "header" else data.field
  applyOperator ext data.operator data.value (get_field_value ext effective_field req)

/-- Conversion of an inline rule-group condition to `ConditionNodeData`
(the struct literal in `evaluate_rule_group`). -/
def condOf (c : RuleGroupCondition) : ConditionNodeData :=
  ⟨c.field, c.operator, c.value, c.header_name⟩

/-- Models `GraphInterpreter::evaluate_rule_group`. -/
def evaluate_rule_group (ext : Ext) (data : RuleGroupNodeData) (req : Request) : Bool :=
  let logic := toUpperStr data.logic
  if data.conditions.isEmpty then true
  else
    let results := data.conditions.map fun c => evaluate_condition ext (condOf c) req
    match logic with
    | "AND" => results.all id
    | "OR" => results.any id
    | "NOT" => !(results.any id)
    | _ => results.all id

/-! ## Rate limit policy (`follow_path` rateLimit arm, `get_rate_limit_key`) -/

/-- Models `GraphInterpreter::get_rate_limit_key`. -/
def get_rate_limit_key (ext : Ext) (data : RateLimitNodeData) (req : Request) : String :=
  match data.key_by with
  | "ip" => (get_field_value ext "clientIp" req).getD "unknown"
  | "fingerprint" =>
    ((get_field_value ext "ja4" req).orElse fun _ =>
      get_field_value ext "ja3" req).getD "unknown"
  | "header" =>
    match data.header_name with
    | some header_name => (req.get_header_str header_name).getD "unknown"
    | none => "unknown"
  | "path" => req.path
  | _ => "unknown"

/-- The `window` match in the rateLimit arm: window unit → `RateWindow`. -/
def rateWindow (unit : String) : RateWindow :=
  match unit with
  | "second" => .OneSec
  | "minute" => .SixtySecs
  | "hour" => .SixtySecs
  | _ => .SixtySecs

/-- The `rps_limit` match: the limit passed to `check_rate`
(`hour` divides the configured limit by 60, truncating). -/
def rpsLimit (unit : String) (limit : Nat) : Nat :=
  match unit with
  | "second" => limit
  | "minute" => limit
  | "hour" => limit / 60
  | _ => limit

/-- The `ttl` match: penalty-box TTL in seconds. -/
def penaltyTtlSecs (unit : String) : Nat :=
  match unit with
  | "hour" => 600
  | _ => 120

/-- The `exceeded` computation of the rateLimit arm: consult the ERL rate
service when a rate limiter was opened, failing open (`false`) on service
errors or when no rate limiter exists. -/
def rateExceeded (g : GraphPayload) (ext : Ext) (d : RateLimitNodeData) (req : Request) :
    Bool :=
  if hasRateLimiter g then
    match ext.checkRate (get_rate_limit_key ext d req) 1 (rateWindow d.window_unit)
        (rpsLimit d.window_unit d.limit) (penaltyTtlSecs d.window_unit) with
    | .ok is_blocked => is_blocked
    | .error _ => false
  else false

/-- The `header_mod` match of the header arm: which modification a header
node collects (`none` for an unknown operation). -/
def headerModOf (d : HeaderNodeData) : Option HeaderMod :=
  match d.operation with
  | "set" => some (.set d.name (d.value.getD ""))
  | "append" => some (.append d.name (d.value.getD ""))
  | "remove" => some (.remove d.name)
  | _ => none

/-! ## Traversal (`follow_path` / `follow_outgoing` / `evaluate`) -/

/-- Outcome of dispatching on one node's kind in `follow_path`: either a
terminal `GraphResult`, or a continuation via `follow_outgoing` with an
optional handle filter and an optional header modification to collect. -/
inductive StepAction where
  | done (r : GraphResult)
  | next (handle : Option String) (push : Option HeaderMod)
deriving DecidableEq

/-- The per-kind dispatch of `follow_path` (the `match node.node_type` body,
minus the shared recursion into `follow_outgoing`). -/
def nodeStep (g : GraphPayload) (ext : Ext) (node : GraphNode) (req : Request) :
    StepAction :=
  match node.node_type with
  | "request" => .next none none
  | "ruleGroup" =>
    match parseRuleGroup node.data with
    | none => .done .NoMatch
    | some d =>
      .next (some (if evaluate_rule_group ext d req then "match" else "noMatch")) none
  | "condition" =>
    match parseCondition node.data with
    | none => .done .NoMatch
    | some d =>
      .next (some (if evaluate_condition ext d req then "true" else "false")) none
  | "action" =>
    match parseAction node.data with
    | none => .done (.Block 500 "Invalid action config")
    | some d =>
      match d.action with
      | "block" => .done (.Block (d.status_code.getD 403) (d.message.getD "Blocked"))
      | "allow" => .done .Allow
      | "redirect" =>
        .done (.Redirect (d.url.getD "/") (d.status_code.getD 302)
          (d.preserve_query.getD true))
      | _ => .done (.Block (d.status_code.getD 403) (d.message.getD "Blocked"))
  | "backend" =>
    match parseBackend node.data with
    | none => .done .NoMatch
    | some d => .done (.Route d)
  | "rateLimit" =>
    match parseRateLimit node.data with
    | none => .next (some "ok") none
    | some d => .next (some (if rateExceeded g ext d req then "exceeded" else "ok")) none
  | "header" =>
    match parseHeader node.data with
    | none => .next none none
    | some d => .next (some "next") (headerModOf d)
  | "redirect" =>
    match parseRedirect node.data with
    | none => .done (.Block 500 "Invalid redirect config")
    | some d =>
      .done (.Redirect d.url (d.status_code.getD 302) (d.preserve_query.getD true))
  | _ => .next none none

/-- The body of `follow_outgoing`, parameterized by the recursive call into
`follow_path` (`recur`): look up the outgoing edges of `node_id`, filter by
the source handle if one is given, terminate `NoMatch` when nothing matches,
otherwise follow the first matching edge. -/
def followOutgoingCore (g : GraphPayload)
    (recur : String → Option (GraphResult × EvalCtx)) (node_id : String)
    (source_handle : Option String) (s : EvalCtx) : Option (GraphResult × EvalCtx) :=
  match lookupEdges g node_id with
  | none => some (.NoMatch, s)
  | some edges =>
    let matching_edges := edges.filter fun e =>
      match source_handle with
      | some h => e.source_handle == some h
      | none => true
    match matching_edges with
    | [] => some (.NoMatch, s)
    | e :: _ => recur e.target

/-- Models `GraphInterpreter::follow_path`, with explicit fuel: the source recursion
is unbounded, and a `none` result means it performs more than `fuel` node
visits (on a cyclic graph: never returns).  Each visited node is appended to
the trace; a header node's collected modification is appended to
`header_mods` before following `"next"`. -/
def follow_path (g : GraphPayload) (ext : Ext) :
    Nat → String → Request → EvalCtx → Option (GraphResult × EvalCtx)
  | 0, _, _, _ => none
  | fuel + 1, node_id, req, s =>
    match lookupNode g node_id with
    | none => some (.NoMatch, s)
    | some node =>
      match nodeStep g ext node req with
      | .done r => some (r, ⟨s.header_mods, s.visited ++ [node_id]⟩)
      | .next handle push =>
        followOutgoingCore g
          (fun t => follow_path g ext fuel t req
            ⟨s.header_mods ++ push.toList, s.visited ++ [node_id]⟩)
          node_id handle ⟨s.header_mods ++ push.toList, s.visited ++ [node_id]⟩

/-- Models `GraphInterpreter::follow_outgoing` (recursing into `follow_path` with
the given fuel). -/
def follow_outgoing (g : GraphPayload) (ext : Ext) (fuel : Nat) (node_id : String)
    (source_handle : Option String) (req : Request) (s : EvalCtx) :
    Option (GraphResult × EvalCtx) :=
  followOutgoingCore g (fun t => follow_path g ext fuel t req s) node_id source_handle s

/-- Models `GraphInterpreter::evaluate`, with the iteration order of
`self.nodes.values()` as an explicit parameter: Rust's `HashMap` iterates its
values in an unspecified, per-instance order, so any permutation of the map
entries is a possible order. -/
def evaluateWithOrder (g : GraphPayload) (ext : Ext) (order : List GraphNode)
    (fuel : Nat) (req : Request) : Option (GraphResult × EvalCtx) :=
  match order.find? (fun n => n.node_type == "request") with
  | none => some (.NoMatch, ⟨[], []⟩)
  | some request_node => follow_path g ext fuel request_node.id req ⟨[], []⟩

/-- Models `evaluate` with the canonical (insertion-order) iteration order. -/
def evaluate (g : GraphPayload) (ext : Ext) (fuel : Nat) (req : Request) :
    Option (GraphResult × EvalCtx) :=
  evaluateWithOrder g ext (nodeEntries g) fuel req

/-- The Rust `evaluate` terminates on this input: some finite number of node
visits suffices. -/
def Terminates (g : GraphPayload) (ext : Ext) (req : Request) : Prop :=
  ∃ fuel, (evaluate g ext fuel req).isSome = true

/-! ## Result dispatch in `main` (`src/compute/src/main.rs`) -/

/-- Models `Request::set_header` / `append_header` / `remove_header` (the Route
branch of `main`).  Header names compare case-insensitively. -/
def applyHeaderMod (hs : List (String × String)) : HeaderMod → List (String × String)
  | .set n v => (hs.filter fun p => !(toLowerStr p.1 == toLowerStr n)) ++ [(n, v)]
  | .append n v => hs ++ [(n, v)]
  | .remove n => hs.filter fun p => !(toLowerStr p.1 == toLowerStr n)

/-- Application of the collected modifications in order
(the `for header_mod in &header_mods` loop in `main`). -/
def applyHeaderMods (hs : List (String × String)) (mods : List HeaderMod) :
    List (String × String) :=
  mods.foldl applyHeaderMod hs

/-- The `GraphResult` dispatch in `main`, restricted to what it does with the
collected header modifications: only the `Route` branch clones the request,
applies the modifications and forwards the result to a backend (`some`
headers of the outgoing backend request); `Block` and `Redirect` build
responses locally, and `Allow`/`NoMatch` fall through to
`forward_to_default_backend_with_reason`, none of which applies the collected
modifications (`none`). -/
def backendRequestHeaders (req : Request) (result : GraphResult)
    (mods : List HeaderMod) : Option (List (String × String)) :=
  match result with
  | .Route _ => some (applyHeaderMods req.headers mods)
  | _ => none

/-- The header modification a visited node contributes to the collected list:
a `header`-kind node with a parseable payload and a known operation
contributes its modification, every other node contributes nothing. -/
def nodeHeaderEntry (g : GraphPayload) (i : String) : Option HeaderMod :=
  match lookupNode g i with
  | none => none
  | some n =>
    if n.node_type == "header" then (parseHeader n.data).bind headerModOf else none

/-! ## Concrete test fixtures -/

/-- A fixed external world for the concrete test graphs: no geo/device data,
the rate service always answers "not exceeded". -/
def extD : Ext where
  geoLookup := fun _ => none
  deviceLookup := fun _ => none
  envPop := none
  checkRate := fun _ _ _ _ _ => .ok false
  regexIsMatch := fun _ _ => none
  parseIp := fun _ => none
  cidrContains := fun _ _ => false
  parsef64 := fun _ => none

/-- A concrete incoming request. -/
def reqD : Request where
  path := "/index.html"
  urlStr := "https://example.com/index.html"
  methodStr := "GET"
  headers := [("host", "example.com"), ("header", "plain")]
  clientIp := some "203.0.113.7"
  ddosDetected := none

/-- Edge constructor for test graphs (ids and handles as in the editor's
React Flow export). -/
def mkEdge (i s t : String) (h : Option String) : GraphEdge := ⟨i, s, t, h, none, none⟩

/-- An `allow` action payload. -/
def allowD : ActionNodeData := ⟨"allow", none, none, none, none⟩

/-- A `block` action payload. -/
def blockD : ActionNodeData := ⟨"block", some 403, some "stop", none, none⟩

/-- A minimal backend payload. -/
def bkD : BackendNodeData :=
  ⟨"origin", "example.org", some 443, none, none, none, none, none, none, none, none,
   none, none, none, none, none, none, none, none, none, none, none, none, none, none,
   none⟩

/-- A cyclic graph: the request node feeds an unknown-kind (pass-through)
node `x` whose single outgoing edge loops back to `x`. -/
def gCyc : GraphPayload where
  nodes := [⟨"r", "request", .malformed⟩, ⟨"x", "loop", .malformed⟩]
  edges := [mkEdge "e1" "r" "x" none, mkEdge "e2" "x" "x" none]

/-- An acyclic graph: request → allow action. -/
def gAcy : GraphPayload where
  nodes := [⟨"r", "request", .malformed⟩, ⟨"al", "action", .action allowD⟩]
  edges := [mkEdge "e1" "r" "al" none]

/-- Request → ruleGroup with a malformed payload, whose outgoing edge leads
to an allow action. -/
def gMal : GraphPayload where
  nodes := [⟨"r", "request", .malformed⟩, ⟨"rg", "ruleGroup", .malformed⟩,
            ⟨"al", "action", .action allowD⟩]
  edges := [mkEdge "e1" "r" "rg" none, mkEdge "e2" "rg" "al" none]

/-- One malformed node of every kind with a per-kind recovery path. -/
def gMalW : GraphPayload where
  nodes := [⟨"a", "action", .malformed⟩, ⟨"rd", "redirect", .malformed⟩,
            ⟨"rl", "rateLimit", .malformed⟩, ⟨"hd", "header", .malformed⟩,
            ⟨"rg", "ruleGroup", .malformed⟩, ⟨"cn", "condition", .malformed⟩,
            ⟨"bk", "backend", .malformed⟩, ⟨"al", "action", .action allowD⟩]
  edges := [mkEdge "e1" "rl" "al" (some "ok"), mkEdge "e2" "hd" "al" none]

/-- A graph with two request nodes that lead to different outcomes. -/
def g2r : GraphPayload where
  nodes := [⟨"r1", "request", .malformed⟩, ⟨"r2", "request", .malformed⟩,
            ⟨"al", "action", .action allowD⟩, ⟨"bl", "action", .action blockD⟩]
  edges := [mkEdge "e1" "r1" "al" none, mkEdge "e2" "r2" "bl" none]

/-- Request → header node (set `x-test: 1`) → backend. -/
def gHdr : GraphPayload where
  nodes := [⟨"r", "request", .malformed⟩,
            ⟨"h1", "header", .header ⟨"set", "x-test", some "1"⟩⟩,
            ⟨"bk", "backend", .backend bkD⟩]
  edges := [mkEdge "e1" "r" "h1" none, mkEdge "e2" "h1" "bk" (some "next")]

/-- Request → header node → block action (mutations collected, then a
Block terminal). -/
def gHdrBlk : GraphPayload where
  nodes := [⟨"r", "request", .malformed⟩,
            ⟨"h1", "header", .header ⟨"set", "x-test", some "1"⟩⟩,
            ⟨"bl", "action", .action blockD⟩]
  edges := [mkEdge "e1" "r" "h1" none, mkEdge "e2" "h1" "bl" (some "next")]

/-- A topological rank for `gAcy`. -/
def rankAcy : String → Nat := fun i => if i == "r" then 1 else 0

/-- A graph whose single edge dangles: its target names no node. -/
def gDang : GraphPayload where
  nodes := [⟨"r", "request", .malformed⟩]
  edges := [mkEdge "e1" "r" "ghost" none]

/-- A graph with no node of kind `request`. -/
def gNoReq : GraphPayload where
  nodes := [⟨"al", "action", .action allowD⟩]
  edges := []

/-- The node-index entries of `g2r` in one possible `HashMap` iteration
order (`r1` first). -/
def order1 : List GraphNode :=
  [⟨"r1", "request", .malformed⟩, ⟨"r2", "request", .malformed⟩,
   ⟨"al", "action", .action allowD⟩, ⟨"bl", "action", .action blockD⟩]

/-- The same entries in another possible iteration order (`r2` first). -/
def order2 : List GraphNode :=
  [⟨"r2", "request", .malformed⟩, ⟨"r1", "request", .malformed⟩,
   ⟨"al", "action", .action allowD⟩, ⟨"bl", "action", .action blockD⟩]

/-! ## Helper lemmas: the `edges_from` index groups edges by source,
preserving declaration order -/

theorem edgesValOf_insertEdge (m : List (String × List GraphEdge)) (e : GraphEdge)
    (a : String) :
    edgesValOf (insertEdge m e) a =
      edgesValOf m a ++ (if e.source == a then [e] else []) := by
  induction m with
  | nil =>
    by_cases h : e.source = a
    · subst h
      simp [edgesValOf, insertEdge, List.find?]
    · have hb : (e.source == a) = false := beq_eq_false_iff_ne.mpr h
      simp [edgesValOf, insertEdge, List.find?, hb]
  | cons head tail ih =>
    obtain ⟨k, v⟩ := head
    by_cases hk : k = e.source
    · by_cases ha : k = a
      · have h1 : (k == e.source) = true := beq_iff_eq.mpr hk
        have h2 : (k == a) = true := beq_iff_eq.mpr ha
        have h3 : (e.source == a) = true := beq_iff_eq.mpr (by rw [← hk]; exact ha)
        simp [edgesValOf, insertEdge, List.find?, h1, h2, h3]
      · have h1 : (k == e.source) = true := beq_iff_eq.mpr hk
        have h2 : (k == a) = false := beq_eq_false_iff_ne.mpr ha
        have h3 : (e.source == a) = false :=
          beq_eq_false_iff_ne.mpr (by rw [← hk]; exact ha)
        simp [edgesValOf, insertEdge, List.find?, h1, h2, h3]
    · have h1 : (k == e.source) = false := beq_eq_false_iff_ne.mpr hk
      by_cases ha : k = a
      · have h2 : (k == a) = true := beq_iff_eq.mpr ha
        have h3 : (e.source == a) = false :=
          beq_eq_false_iff_ne.mpr (fun hh => hk (ha.trans hh.symm))
        simp [edgesValOf, insertEdge, List.find?, h1, h2, h3]
      · have h2 : (k == a) = false := beq_eq_false_iff_ne.mpr ha
        have := ih
        simp only [edgesValOf, insertEdge, h1, Bool.false_eq_true, if_false,
          List.find?, h2] at this ⊢
        exact this

theorem edgesValOf_foldl (es : List GraphEdge) (m : List (String × List GraphEdge))
    (a : String) :
    edgesValOf (es.foldl insertEdge m) a =
      edgesValOf m a ++ es.filter (fun e => e.source == a) := by
  induction es generalizing m with
  | nil => simp
  | cons e rest ih =>
    rw [List.foldl_cons, ih, edgesValOf_insertEdge]
    by_cases h : e.source == a <;> simp [h, List.filter_cons]

/-- The `edges_from` index agrees with filtering the declared edge list by
source: grouping preserves the declaration order within each source. -/
theorem lookupEdges_getD (g : GraphPayload) (a : String) :
    (lookupEdges g a).getD [] = g.edges.filter (fun e => e.source == a) := by
  have h := edgesValOf_foldl g.edges [] a
  simpa [edgesFromMap, edgesValOf, lookupEdges] using h

theorem lookupEdges_eq_some (g : GraphPayload) (a : String) (l : List GraphEdge)
    (h : lookupEdges g a = some l) : l = g.edges.filter (fun e => e.source == a) := by
  have := lookupEdges_getD g a
  rw [h] at this
  simpa using this

theorem lookupEdges_eq_none (g : GraphPayload) (a : String)
    (h : lookupEdges g a = none) : g.edges.filter (fun e => e.source == a) = [] := by
  have := lookupEdges_getD g a
  rw [h] at this
  simpa using this

/-! ## Helper lemmas: the node index -/

theorem mem_insertNode (m : List GraphNode) (x n : GraphNode)
    (h : n ∈ insertNode m x) : n ∈ m ∨ n = x := by
  unfold insertNode at h
  split at h
  · obtain ⟨y, hy, hyn⟩ := List.mem_map.mp h
    by_cases hid : y.id == x.id
    · simp [hid] at hyn
      exact Or.inr hyn.symm
    · simp [hid] at hyn
      exact Or.inl (hyn ▸ hy)
  · rcases List.mem_append.mp h with h1 | h1
    · exact Or.inl h1
    · exact Or.inr (List.mem_singleton.mp h1)

theorem mem_foldl_insertNode (l : List GraphNode) (m : List GraphNode) (n : GraphNode)
    (h : n ∈ l.foldl insertNode m) : n ∈ m ∨ n ∈ l := by
  induction l generalizing m with
  | nil => exact Or.inl (by simpa using h)
  | cons x rest ih =>
    rw [List.foldl_cons] at h
    rcases ih (insertNode m x) h with h1 | h1
    · rcases mem_insertNode m x n h1 with h2 | h2
      · exact Or.inl h2
      · exact Or.inr (h2 ▸ List.mem_cons_self x rest)
    · exact Or.inr (List.mem_cons_of_mem x h1)

/-- Every entry of the node index is one of the graph's nodes. -/
theorem mem_nodeEntries (g : GraphPayload) (n : GraphNode) (h : n ∈ nodeEntries g) :
    n ∈ g.nodes := by
  rcases mem_foldl_insertNode g.nodes [] n h with h1 | h1
  · simp at h1
  · exact h1

/-! ## Helper lemmas: `find?` under permutations with a unique satisfier -/

theorem two_mem_le_length {α : Type} (l : List α) (x y : α) (hx : x ∈ l) (hy : y ∈ l)
    (hxy : x ≠ y) : 2 ≤ l.length := by
  induction l with
  | nil => simp at hx
  | cons a t ih =>
    rcases List.mem_cons.mp hx with rfl | hx1
    · have hyt : y ∈ t := by
        rcases List.mem_cons.mp hy with rfl | h1
        · exact absurd rfl hxy
        · exact h1
      have : 1 ≤ t.length := List.length_pos.mpr (List.ne_nil_of_mem hyt)
      simp only [List.length_cons]
      omega
    · rcases List.mem_cons.mp hy with rfl | hy1
      · have : 1 ≤ t.length := List.length_pos.mpr (List.ne_nil_of_mem hx1)
        simp only [List.length_cons]
        omega
      · have := ih hx1 hy1
        simp only [List.length_cons]
        omega

theorem filter_subsingleton {α : Type} (l : List α) (p : α → Bool)
    (h : (l.filter p).length ≤ 1) (x : α) (hx : x ∈ l) (y : α) (hy : y ∈ l)
    (hpx : p x = true) (hpy : p y = true) : x = y := by
  by_contra hne
  have hxf : x ∈ l.filter p := List.mem_filter.mpr ⟨hx, hpx⟩
  have hyf : y ∈ l.filter p := List.mem_filter.mpr ⟨hy, hpy⟩
  have := two_mem_le_length (l.filter p) x y hxf hyf hne
  omega

theorem find?_eq_of_perm {α : Type} (p : α → Bool) (l1 l2 : List α)
    (hperm : l1.Perm l2)
    (hs : ∀ x ∈ l2, ∀ y ∈ l2, p x = true → p y = true → x = y) :
    l1.find? p = l2.find? p := by
  match h1 : l1.find? p, h2 : l2.find? p with
  | none, none => rfl
  | some x, none =>
    have hx1 : x ∈ l1 := List.mem_of_find?_eq_some h1
    have hpx : p x = true := List.find?_some h1
    have := List.find?_eq_none.mp h2 x (hperm.mem_iff.mp hx1)
    exact absurd hpx this
  | none, some y =>
    have hy2 : y ∈ l2 := List.mem_of_find?_eq_some h2
    have hpy : p y = true := List.find?_some h2
    have := List.find?_eq_none.mp h1 y (hperm.mem_iff.mpr hy2)
    exact absurd hpy this
  | some x, some y =>
    have hx1 : x ∈ l2 := hperm.mem_iff.mp (List.mem_of_find?_eq_some h1)
    have hy2 : y ∈ l2 := List.mem_of_find?_eq_some h2
    have hpx : p x = true := List.find?_some h1
    have hpy : p y = true := List.find?_some h2
    rw [hs x hx1 y hy2 hpx hpy]

/-! ## Helper lemmas: unfolding the traversal -/

theorem follow_path_zero (g : GraphPayload) (ext : Ext) (a : String) (req : Request)
    (s : EvalCtx) : follow_path g ext 0 a req s = none := rfl

theorem follow_path_succ (g : GraphPayload) (ext : Ext) (fuel : Nat) (a : String)
    (req : Request) (s : EvalCtx) :
    follow_path g ext (fuel + 1) a req s =
      match lookupNode g a with
      | none => some (.NoMatch, s)
      | some node =>
        match nodeStep g ext node req with
        | .done r => some (r, ⟨s.header_mods, s.visited ++ [a]⟩)
        | .next handle push =>
          follow_outgoing g ext fuel a handle req
            ⟨s.header_mods ++ push.toList, s.visited ++ [a]⟩ := rfl

/-! ## Helper lemmas: which header modification a dispatch step collects -/

theorem nodeHeaderEntry_of_done (g : GraphPayload) (ext : Ext) (node : GraphNode)
    (req : Request) (i : String) (r : GraphResult)
    (hl : lookupNode g i = some node) (h : nodeStep g ext node req = .done r) :
    nodeHeaderEntry g i = none := by
  unfold nodeStep at h
  split at h <;> (try split at h) <;> (try split at h) <;> simp_all [nodeHeaderEntry]

theorem nodeHeaderEntry_of_next (g : GraphPayload) (ext : Ext) (node : GraphNode)
    (req : Request) (i : String) (hd : Option String) (p : Option HeaderMod)
    (hl : lookupNode g i = some node) (h : nodeStep g ext node req = .next hd p) :
    p = nodeHeaderEntry g i := by
  unfold nodeStep at h
  split at h <;> (try split at h) <;> (try split at h) <;> simp_all [nodeHeaderEntry]

/-! ## Helper lemma: the collected modifications are exactly the header
entries of the visited nodes, in traversal order -/

theorem follow_path_state (g : GraphPayload) (ext : Ext) (req : Request) :
    ∀ fuel a s r s', follow_path g ext fuel a req s = some (r, s') →
      ∃ suf, s'.visited = s.visited ++ suf ∧
        s'.header_mods = s.header_mods ++ suf.filterMap (nodeHeaderEntry g) := by
  intro fuel
  induction fuel with
  | zero => intro a s r s' h; simp [follow_path_zero] at h
  | succ fuel ih =>
    intro a s r s' h
    rw [follow_path_succ] at h
    cases hl : lookupNode g a with
    | none =>
      simp only [hl, Option.some.injEq, Prod.mk.injEq] at h
      exact ⟨[], by simp [← h.2]⟩
    | some node =>
      simp only [hl] at h
      cases hstep : nodeStep g ext node req with
      | done r0 =>
        simp only [hstep, Option.some.injEq, Prod.mk.injEq] at h
        refine ⟨[a], ?_, ?_⟩
        · rw [← h.2]
        · rw [← h.2]
          simp [List.filterMap, nodeHeaderEntry_of_done g ext node req a r0 hl hstep]
      | next hd push =>
        simp only [hstep] at h
        rw [follow_outgoing] at h
        unfold followOutgoingCore at h
        have hpush : push = nodeHeaderEntry g a :=
          nodeHeaderEntry_of_next g ext node req a hd push hl hstep
        cases he : lookupEdges g a with
        | none =>
          simp only [he, Option.some.injEq, Prod.mk.injEq] at h
          refine ⟨[a], ?_, ?_⟩
          · rw [← h.2]
          · rw [← h.2]
            simp only [List.filterMap, ← hpush]
            cases push <;> simp
        | some edges =>
          simp only [he] at h
          cases hm : edges.filter (fun e =>
              match hd with
              | some hh => e.source_handle == some hh
              | none => true) with
          | nil =>
            simp only [hm, Option.some.injEq, Prod.mk.injEq] at h
            refine ⟨[a], ?_, ?_⟩
            · rw [← h.2]
            · rw [← h.2]
              simp only [List.filterMap, ← hpush]
              cases push <;> simp
          | cons e rest =>
            simp only [hm] at h
            obtain ⟨suf2, hv, hmods⟩ := ih e.target _ r s' h
            refine ⟨a :: suf2, ?_, ?_⟩
            · rw [hv]
              simp
            · rw [hmods]
              simp only [List.filterMap_cons, ← hpush]
              cases push <;> simp

/-! ## Helper lemma: termination from a topological rank -/

theorem follow_path_isSome_of_rank (g : GraphPayload) (ext : Ext) (req : Request)
    (rank : String → Nat) (hr : ∀ e ∈ g.edges, rank e.target < rank e.source) :
    ∀ fuel a s, rank a < fuel → (follow_path g ext fuel a req s).isSome = true := by
  intro fuel
  induction fuel with
  | zero => intro a s h; omega
  | succ fuel ih =>
    intro a s hfa
    rw [follow_path_succ]
    cases hl : lookupNode g a with
    | none => simp [hl]
    | some node =>
      simp only [hl]
      cases hstep : nodeStep g ext node req with
      | done r0 => simp [hstep]
      | next hd push =>
        simp only [hstep, follow_outgoing]
        unfold followOutgoingCore
        cases he : lookupEdges g a with
        | none => simp [he]
        | some edges =>
          simp only [he]
          cases hm : edges.filter (fun e =>
              match hd with
              | some hh => e.source_handle == some hh
              | none => true) with
          | nil => simp [hm]
          | cons e rest =>
            simp only [hm]
            apply ih
            have hedges := lookupEdges_eq_some g a edges he
            have hmem : e ∈ edges.filter (fun e =>
                match hd with
                | some hh => e.source_handle == some hh
                | none => true) := by
              rw [hm]; exact List.mem_cons_self e rest
            have hin : e ∈ edges := List.mem_of_mem_filter hmem
            rw [hedges] at hin
            obtain ⟨hge, hsrc⟩ := List.mem_filter.mp hin
            have h1 := hr e hge
            have h2 : e.source = a := by simpa using hsrc
            rw [h2] at h1
            omega

/-! ## Claim C1: termination of `evaluate` -/

/-- On the cyclic graph `gCyc`, following from the self-looping node `x`
exhausts any amount of fuel: the Rust recursion never returns. -/
theorem follow_path_gCyc_x_none :
    ∀ fuel s, follow_path gCyc extD fuel "x" reqD s = none := by
  intro fuel
  induction fuel with
  | zero => intro s; rfl
  | succ fuel ih =>
    intro s
    show follow_path gCyc extD fuel "x" reqD
      ⟨s.header_mods ++ [], s.visited ++ ["x"]⟩ = none
    exact ih _

/-- Evaluation of the cyclic graph runs out of any amount of fuel. -/
theorem evaluate_gCyc_none : ∀ fuel, evaluate gCyc extD fuel reqD = none := by
  intro fuel
  cases fuel with
  | zero => rfl
  | succ fuel =>
    show follow_path gCyc extD fuel "x" reqD ⟨[], ["r"]⟩ = none
    exact follow_path_gCyc_x_none fuel _

/-- Claim C1 (counterexample): the claim "for every graph (including graphs
whose edges form a cycle) and every request, `evaluate` terminates" is false:
on the concrete cyclic graph `gCyc` (request → `x`, `x` → `x`), the mutual
recursion `follow_path`/`follow_outgoing` revisits `x` forever — no number of
node visits suffices for `evaluate` to return a `GraphResult`. -/
theorem evaluate_cyclic_graph_diverges : ¬ Terminates gCyc extD reqD := by
  rintro ⟨fuel, hf⟩
  rw [evaluate_gCyc_none fuel] at hf
  simp at hf

/-- Claim C1 (amended): for every graph admitting a topological rank on node
ids (every edge strictly decreases the rank — equivalently, the edges form no
directed cycle), and every request and fixed external world, `evaluate`
terminates and returns a `GraphResult`. -/
theorem evaluate_terminates_of_rank (g : GraphPayload) (ext : Ext) (req : Request)
    (rank : String → Nat) (hr : ∀ e ∈ g.edges, rank e.target < rank e.source) :
    Terminates g ext req := by
  unfold Terminates
  cases hf : (nodeEntries g).find? (fun n => n.node_type == "request") with
  | none => exact ⟨1, by simp [evaluate, evaluateWithOrder, hf]⟩
  | some n =>
    refine ⟨rank n.id + 1, ?_⟩
    simp only [evaluate, evaluateWithOrder, hf]
    exact follow_path_isSome_of_rank g ext req rank hr _ _ _ (Nat.lt_succ_self _)

/-- Witness for C1: the concrete acyclic graph `gAcy` satisfies the rank
hypothesis with `rankAcy`, and evaluation on it terminates. -/
theorem evaluate_terminates_of_rank_witness :
    (∀ e ∈ gAcy.edges, rankAcy e.target < rankAcy e.source) ∧
    Terminates gAcy extD reqD :=
  ⟨by decide, evaluate_terminates_of_rank gAcy extD reqD rankAcy (by decide)⟩

/-! ## Claim C2: per-kind recovery from malformed payloads -/

/-- Claim C2 (amended): when a node's payload does not match its kind's schema,
the recovery is per-kind: a malformed `action` or `redirect` node yields
`Block` with status 500; a malformed `rateLimit` node follows the `"ok"`
handle; a malformed `header` node falls back to the handle-less pass-through;
and malformed `ruleGroup`, `condition` and `backend` nodes terminate the
traversal with `NoMatch` (not a pass-through). -/
theorem malformed_payload_recovery (g : GraphPayload) (ext : Ext) (fuel : Nat)
    (req : Request) (s : EvalCtx) (i : String) (n : GraphNode)
    (hl : lookupNode g i = some n) :
    (n.node_type = "action" → parseAction n.data = none →
      follow_path g ext (fuel + 1) i req s =
        some (.Block 500 "Invalid action config", ⟨s.header_mods, s.visited ++ [i]⟩)) ∧
    (n.node_type = "redirect" → parseRedirect n.data = none →
      follow_path g ext (fuel + 1) i req s =
        some (.Block 500 "Invalid redirect config", ⟨s.header_mods, s.visited ++ [i]⟩)) ∧
    (n.node_type = "rateLimit" → parseRateLimit n.data = none →
      follow_path g ext (fuel + 1) i req s =
        follow_outgoing g ext fuel i (some "ok") req ⟨s.header_mods, s.visited ++ [i]⟩) ∧
    (n.node_type = "header" → parseHeader n.data = none →
      follow_path g ext (fuel + 1) i req s =
        follow_outgoing g ext fuel i none req ⟨s.header_mods, s.visited ++ [i]⟩) ∧
    (n.node_type = "ruleGroup" → parseRuleGroup n.data = none →
      follow_path g ext (fuel + 1) i req s =
        some (.NoMatch, ⟨s.header_mods, s.visited ++ [i]⟩)) ∧
    (n.node_type = "condition" → parseCondition n.data = none →
      follow_path g ext (fuel + 1) i req s =
        some (.NoMatch, ⟨s.header_mods, s.visited ++ [i]⟩)) ∧
    (n.node_type = "backend" → parseBackend n.data = none →
      follow_path g ext (fuel + 1) i req s =
        some (.NoMatch, ⟨s.header_mods, s.visited ++ [i]⟩)) := by
  refine ⟨?_, ?_, ?_, ?_, ?_, ?_, ?_⟩ <;> intro ht hp <;>
    rw [follow_path_succ] <;> simp [hl, nodeStep, ht, hp]

/-- Claim C2 (counterexample): the claim says a malformed `ruleGroup` node
falls back to the handle-less pass-through; on `gMal` the code instead
terminates with `NoMatch` at the malformed node, while the claimed
pass-through continuation from that node would have reached the allow
action. -/
theorem malformed_ruleGroup_not_pass_through :
    evaluate gMal extD 10 reqD = some (.NoMatch, ⟨[], ["r", "rg"]⟩) ∧
    follow_outgoing gMal extD 9 "rg" none reqD ⟨[], ["r", "rg"]⟩ =
      some (.Allow, ⟨[], ["r", "rg", "al"]⟩) := by
  exact ⟨by decide, by decide⟩

/-- Witness for C2: each conjunct of the recovery table, instantiated on the
graph `gMalW` holding one malformed node of every kind. -/
theorem malformed_payload_recovery_witness :
    (follow_path gMalW extD 1 "a" reqD ⟨[], []⟩ =
      some (.Block 500 "Invalid action config", ⟨[], ["a"]⟩)) ∧
    (follow_path gMalW extD 1 "rd" reqD ⟨[], []⟩ =
      some (.Block 500 "Invalid redirect config", ⟨[], ["rd"]⟩)) ∧
    (follow_path gMalW extD 1 "rl" reqD ⟨[], []⟩ =
      follow_outgoing gMalW extD 0 "rl" (some "ok") reqD ⟨[], ["rl"]⟩) ∧
    (follow_path gMalW extD 1 "hd" reqD ⟨[], []⟩ =
      follow_outgoing gMalW extD 0 "hd" none reqD ⟨[], ["hd"]⟩) ∧
    (follow_path gMalW extD 1 "rg" reqD ⟨[], []⟩ = some (.NoMatch, ⟨[], ["rg"]⟩)) ∧
    (follow_path gMalW extD 1 "cn" reqD ⟨[], []⟩ = some (.NoMatch, ⟨[], ["cn"]⟩)) ∧
    (follow_path gMalW extD 1 "bk" reqD ⟨[], []⟩ = some (.NoMatch, ⟨[], ["bk"]⟩)) :=
  ⟨(malformed_payload_recovery gMalW extD 0 reqD ⟨[], []⟩ "a"
      ⟨"a", "action", .malformed⟩ (by decide)).1 rfl rfl,
   (malformed_payload_recovery gMalW extD 0 reqD ⟨[], []⟩ "rd"
      ⟨"rd", "redirect", .malformed⟩ (by decide)).2.1 rfl rfl,
   (malformed_payload_recovery gMalW extD 0 reqD ⟨[], []⟩ "rl"
      ⟨"rl", "rateLimit", .malformed⟩ (by decide)).2.2.1 rfl rfl,
   (malformed_payload_recovery gMalW extD 0 reqD ⟨[], []⟩ "hd"
      ⟨"hd", "header", .malformed⟩ (by decide)).2.2.2.1 rfl rfl,
   (malformed_payload_recovery gMalW extD 0 reqD ⟨[], []⟩ "rg"
      ⟨"rg", "ruleGroup", .malformed⟩ (by decide)).2.2.2.2.1 rfl rfl,
   (malformed_payload_recovery gMalW extD 0 reqD ⟨[], []⟩ "cn"
      ⟨"cn", "condition", .malformed⟩ (by decide)).2.2.2.2.2.1 rfl rfl,
   (malformed_payload_recovery gMalW extD 0 reqD ⟨[], []⟩ "bk"
      ⟨"bk", "backend", .malformed⟩ (by decide)).2.2.2.2.2.2 rfl rfl⟩

/-! ## Claim C3: header mutations — traversal order, applied only on Route -/

/-- Claim C3: whenever evaluation returns, the collected header-modification
list is exactly the per-node `set`/`append`/`remove` entries of the visited
`header` nodes, in traversal order; and the result dispatch of `main` applies
the collected modifications to an outgoing backend request only for a `Route`
result — for `Block`, `Redirect`, `Allow` and `NoMatch` no backend request
carrying them exists. -/
theorem header_mods_order_and_application (g : GraphPayload) (ext : Ext) (fuel : Nat)
    (req : Request) (r : GraphResult) (s' : EvalCtx)
    (h : evaluate g ext fuel req = some (r, s')) :
    s'.header_mods = s'.visited.filterMap (nodeHeaderEntry g) ∧
    ((∀ bd, r ≠ GraphResult.Route bd) →
      backendRequestHeaders req r s'.header_mods = none) ∧
    (∀ bd, r = GraphResult.Route bd →
      backendRequestHeaders req r s'.header_mods =
        some (applyHeaderMods req.headers s'.header_mods)) := by
  refine ⟨?_, ?_, ?_⟩
  · unfold evaluate evaluateWithOrder at h
    cases hf : (nodeEntries g).find? (fun n => n.node_type == "request") with
    | none =>
      simp only [hf, Option.some.injEq, Prod.mk.injEq] at h
      rw [← h.2]
      rfl
    | some n =>
      simp only [hf] at h
      obtain ⟨suf, hv, hm⟩ := follow_path_state g ext req fuel n.id ⟨[], []⟩ r s' h
      simp only [List.nil_append] at hv hm
      rw [hv, hm]
  · intro hne
    cases r with
    | Route bd => exact absurd rfl (hne bd)
    | Block c m => rfl
    | Redirect u c p => rfl
    | Allow => rfl
    | NoMatch => rfl
  · rintro bd rfl
    rfl

/-- Witness for C3: on `gHdr` a Route-terminating traversal collects the
`set x-test` modification (matching the visited-header-node entries), and on
`gHdrBlk` a Block-terminating traversal collects it but `main` applies it to
no backend request. -/
theorem header_mods_order_and_application_witness :
    (evaluate gHdr extD 10 reqD =
      some (.Route bkD, ⟨[.set "x-test" "1"], ["r", "h1", "bk"]⟩)) ∧
    ([HeaderMod.set "x-test" "1"] =
      List.filterMap (nodeHeaderEntry gHdr) ["r", "h1", "bk"]) ∧
    (evaluate gHdrBlk extD 10 reqD =
      some (.Block 403 "stop", ⟨[.set "x-test" "1"], ["r", "h1", "bl"]⟩)) ∧
    (backendRequestHeaders reqD (.Block 403 "stop") [HeaderMod.set "x-test" "1"] =
      none) :=
  ⟨by decide,
   (header_mods_order_and_application gHdr extD 10 reqD (.Route bkD)
      ⟨[.set "x-test" "1"], ["r", "h1", "bk"]⟩ (by decide)).1,
   by decide,
   (header_mods_order_and_application gHdrBlk extD 10 reqD (.Block 403 "stop")
      ⟨[.set "x-test" "1"], ["r", "h1", "bl"]⟩ (by decide)).2.1
     (fun bd hh => GraphResult.noConfusion hh)⟩

/-! ## Claim C4: determinism of `evaluate` -/

/-- Claim C4 (amended): with the external-service responses held fixed,
evaluation is independent of the `HashMap` iteration order — and hence
identical across re-evaluations and freshly constructed interpreters,
including the collected header-modification list — provided the node index
contains at most one node of kind `request`.  (With two or more `request`
nodes the entry node depends on the iteration order; see the
counterexample.) -/
theorem evaluate_deterministic_of_unique_request (g : GraphPayload) (ext : Ext)
    (fuel : Nat) (req : Request) (o1 o2 : List GraphNode)
    (h1 : o1.Perm (nodeEntries g)) (h2 : o2.Perm (nodeEntries g))
    (huniq : ((nodeEntries g).filter (fun n => n.node_type == "request")).length ≤ 1) :
    evaluateWithOrder g ext o1 fuel req = evaluateWithOrder g ext o2 fuel req := by
  have hs := filter_subsingleton (nodeEntries g)
    (fun n => n.node_type == "request") huniq
  have e1 := find?_eq_of_perm (fun n => n.node_type == "request") o1 (nodeEntries g) h1
    (fun x hx y hy px py => hs x hx y hy px py)
  have e2 := find?_eq_of_perm (fun n => n.node_type == "request") o2 (nodeEntries g) h2
    (fun x hx y hy px py => hs x hx y hy px py)
  unfold evaluateWithOrder
  rw [e1, e2]

/-- Claim C4 (counterexample): on `g2r`, which has two nodes of kind `request`
leading to different terminals, two legitimate `HashMap` iteration orders
(both permutations of the node-index entries) make `evaluate` return
different `GraphResult`s — a freshly constructed interpreter may pick either
entry node. -/
theorem two_request_nodes_order_dependent :
    order1.Perm (nodeEntries g2r) ∧ order2.Perm (nodeEntries g2r) ∧
    evaluateWithOrder g2r extD order1 10 reqD ≠
      evaluateWithOrder g2r extD order2 10 reqD := by
  refine ⟨by decide, by decide, by decide⟩

/-- Witness for C4: on the single-request-node graph `gAcy` the hypotheses
hold with both orders equal to the node-index entries. -/
theorem evaluate_deterministic_witness :
    (nodeEntries gAcy).Perm (nodeEntries gAcy) ∧
    ((nodeEntries gAcy).filter (fun n => n.node_type == "request")).length ≤ 1 ∧
    evaluateWithOrder gAcy extD (nodeEntries gAcy) 10 reqD =
      evaluateWithOrder gAcy extD (nodeEntries gAcy) 10 reqD :=
  ⟨List.Perm.refl _, by decide,
   evaluate_deterministic_of_unique_request gAcy extD 10 reqD _ _
     (List.Perm.refl _) (List.Perm.refl _) (by decide)⟩

/-! ## Claim C5: rule-group logic semantics -/

/-- Claim C5: `evaluate_rule_group` returns `true` on an empty condition list
regardless of the logic operator; on a non-empty list, `AND` is true iff all
conditions evaluate true, `OR` iff at least one does, `NOT` iff none do, and
any logic string not recognized (after upper-casing) behaves like `AND`. -/
theorem rule_group_logic_semantics (ext : Ext) (req : Request)
    (data : RuleGroupNodeData) :
    (data.conditions = [] → evaluate_rule_group ext data req = true) ∧
    (data.conditions ≠ [] → toUpperStr data.logic = "AND" →
      (evaluate_rule_group ext data req = true ↔
        ∀ c ∈ data.conditions, evaluate_condition ext (condOf c) req = true)) ∧
    (data.conditions ≠ [] → toUpperStr data.logic = "OR" →
      (evaluate_rule_group ext data req = true ↔
        ∃ c ∈ data.conditions, evaluate_condition ext (condOf c) req = true)) ∧
    (data.conditions ≠ [] → toUpperStr data.logic = "NOT" →
      (evaluate_rule_group ext data req = true ↔
        ∀ c ∈ data.conditions, evaluate_condition ext (condOf c) req = false)) ∧
    (data.conditions ≠ [] → toUpperStr data.logic ∉ (["AND", "OR", "NOT"] : List String) →
      (evaluate_rule_group ext data req = true ↔
        ∀ c ∈ data.conditions, evaluate_condition ext (condOf c) req = true)) := by
  refine ⟨?_, ?_, ?_, ?_, ?_⟩
  · intro h
    simp [evaluate_rule_group, h]
  · intro hne hl
    have hne' : data.conditions.isEmpty = false := by
      cases h : data.conditions <;> simp_all
    simp [evaluate_rule_group, hne', hl, List.all_eq_true, List.forall_mem_map]
  · intro hne hl
    have hne' : data.conditions.isEmpty = false := by
      cases h : data.conditions <;> simp_all
    simp [evaluate_rule_group, hne', hl, List.any_eq_true, List.mem_map]
  · intro hne hl
    have hne' : data.conditions.isEmpty = false := by
      cases h : data.conditions <;> simp_all
    simp [evaluate_rule_group, hne', hl, Bool.not_eq_true', List.any_eq_false,
      List.forall_mem_map]
  · intro hne hnl
    have hne' : data.conditions.isEmpty = false := by
      cases h : data.conditions <;> simp_all
    simp only [evaluate_rule_group, hne', Bool.false_eq_true, if_false]
    split
    · next heq => exact absurd (by rw [heq]; simp) hnl
    · next heq => exact absurd (by rw [heq]; simp) hnl
    · next heq => exact absurd (by rw [heq]; simp) hnl
    · simp [List.all_eq_true, List.forall_mem_map]

/-- Witness for C5: a concrete two-condition rule group under every logic
mode, plus the empty-condition case. -/
theorem rule_group_logic_semantics_witness :
    (evaluate_rule_group extD ⟨some "empty", "NOT", []⟩ reqD = true) ∧
    (evaluate_rule_group extD
      ⟨none, "and", [⟨"c1", "path", "equals", "/index.html", none⟩,
                     ⟨"c2", "method", "equals", "GET", none⟩]⟩ reqD = true) ∧
    (evaluate_rule_group extD
      ⟨none, "or", [⟨"c1", "path", "equals", "/nope", none⟩,
                    ⟨"c2", "method", "equals", "GET", none⟩]⟩ reqD = true) ∧
    (evaluate_rule_group extD
      ⟨none, "NOT", [⟨"c1", "path", "equals", "/nope", none⟩,
                     ⟨"c2", "method", "equals", "POST", none⟩]⟩ reqD = true) ∧
    (evaluate_rule_group extD
      ⟨none, "xor", [⟨"c1", "path", "equals", "/index.html", none⟩,
                     ⟨"c2", "method", "equals", "GET", none⟩]⟩ reqD = true) :=
  ⟨(rule_group_logic_semantics extD reqD ⟨some "empty", "NOT", []⟩).1 rfl,
   ((rule_group_logic_semantics extD reqD _).2.1 (by decide) (by decide)).mpr
     (by decide),
   ((rule_group_logic_semantics extD reqD _).2.2.1 (by decide) (by decide)).mpr
     (by decide),
   ((rule_group_logic_semantics extD reqD _).2.2.2.1 (by decide) (by decide)).mpr
     (by decide),
   ((rule_group_logic_semantics extD reqD _).2.2.2.2 (by decide) (by decide)).mpr
     (by decide)⟩

/-! ## Claim C6: edge selection in `follow_outgoing` -/

/-- Claim C6: `follow_outgoing` selects exactly the edges whose `source` equals
the given node id (the grouped `edges_from` index agrees with filtering the
declared edge list, preserving declaration order), further filtered by
`source_handle` equality when a handle is given; when that set is empty it
returns `NoMatch`, and otherwise it recurses on the target of the first
matching edge in declaration order. -/
theorem follow_outgoing_first_matching_edge (g : GraphPayload) (ext : Ext)
    (fuel : Nat) (node_id : String) (source_handle : Option String) (req : Request)
    (s : EvalCtx) :
    follow_outgoing g ext fuel node_id source_handle req s =
      match (g.edges.filter (fun e => e.source == node_id)).filter (fun e =>
          match source_handle with
          | some h => e.source_handle == some h
          | none => true) with
      | [] => some (.NoMatch, s)
      | e :: _ => follow_path g ext fuel e.target req s := by
  rw [follow_outgoing]
  unfold followOutgoingCore
  cases he : lookupEdges g node_id with
  | none =>
    rw [lookupEdges_eq_none g node_id he]
    simp
  | some edges =>
    rw [← lookupEdges_eq_some g node_id edges he]

/-! ## Claim C7: traversal dead ends are `NoMatch`, not errors -/

/-- Claim C7: following to a node id that names no node returns `NoMatch`;
a node with no outgoing edge matching the required handle (in particular
none at all) returns `NoMatch`; and a graph with no node of kind `request`
makes `evaluate` return `NoMatch`. -/
theorem dead_ends_yield_no_match (g : GraphPayload) (ext : Ext) (fuel : Nat)
    (req : Request) (s : EvalCtx) (i : String) (h : Option String) :
    (lookupNode g i = none →
      follow_path g ext (fuel + 1) i req s = some (.NoMatch, s)) ∧
    ((g.edges.filter (fun e => e.source == i)).filter (fun e =>
        match h with
        | some hh => e.source_handle == some hh
        | none => true) = [] →
      follow_outgoing g ext fuel i h req s = some (.NoMatch, s)) ∧
    ((∀ n ∈ g.nodes, ¬ n.node_type = "request") →
      evaluate g ext fuel req = some (.NoMatch, ⟨[], []⟩)) := by
  refine ⟨?_, ?_, ?_⟩
  · intro hl
    rw [follow_path_succ]
    simp [hl]
  · intro hf
    rw [follow_outgoing]
    unfold followOutgoingCore
    cases he : lookupEdges g i with
    | none => simp
    | some edges =>
      have hedges := lookupEdges_eq_some g i edges he
      subst hedges
      simp [hf]
  · intro hnone
    unfold evaluate evaluateWithOrder
    cases hf : (nodeEntries g).find? (fun n => n.node_type == "request") with
    | none => simp
    | some n =>
      exfalso
      have hmem := mem_nodeEntries g n (List.mem_of_find?_eq_some hf)
      have hp := List.find?_some hf
      exact hnone n hmem (by simpa using hp)

/-- Witness for C7: a dangling edge target on `gDang`, a handle with no
matching edge on `gAcy`, and the request-node-less graph `gNoReq`. -/
theorem dead_ends_yield_no_match_witness :
    (lookupNode gDang "ghost" = none) ∧
    (follow_path gDang extD 1 "ghost" reqD ⟨[], ["r"]⟩ =
      some (.NoMatch, ⟨[], ["r"]⟩)) ∧
    (follow_outgoing gAcy extD 0 "al" (some "next") reqD ⟨[], []⟩ =
      some (.NoMatch, ⟨[], []⟩)) ∧
    (evaluate gNoReq extD 5 reqD = some (.NoMatch, ⟨[], []⟩)) :=
  ⟨by decide,
   (dead_ends_yield_no_match gDang extD 0 reqD ⟨[], ["r"]⟩ "ghost" none).1 (by decide),
   (dead_ends_yield_no_match gAcy extD 0 reqD ⟨[], []⟩ "al" (some "next")).2.1
     (by decide),
   (dead_ends_yield_no_match gNoReq extD 5 reqD ⟨[], []⟩ "al" none).2.2 (by decide)⟩

/-! ## Claim C8: rate-limit window mapping and penalty duration -/

/-- Claim C8: the window mapping is `second` → 1-second window with the
configured limit, `minute` → 60-second window with the configured limit, and
`hour` → 60-second window with the configured limit divided by 60; the
penalty-box TTL passed to the rate service is 600 seconds (10 minutes) for
`hour` windows and 120 seconds (2 minutes) for every other window unit — and
the rateLimit dispatch consults the rate service through `rateExceeded`,
which passes exactly these parameters to `check_rate`. -/
theorem rate_limit_window_policy (l : Nat) :
    (rateWindow "second" = RateWindow.OneSec ∧ rpsLimit "second" l = l) ∧
    (rateWindow "minute" = RateWindow.SixtySecs ∧ rpsLimit "minute" l = l) ∧
    (rateWindow "hour" = RateWindow.SixtySecs ∧ rpsLimit "hour" l = l / 60) ∧
    (penaltyTtlSecs "hour" = 600) ∧
    (∀ u : String, u ≠ "hour" → penaltyTtlSecs u = 120) ∧
    (∀ (g : GraphPayload) (ext : Ext) (req : Request) (n : GraphNode)
      (d : RateLimitNodeData), n.node_type = "rateLimit" →
      parseRateLimit n.data = some d →
      nodeStep g ext n req =
        .next (some (if rateExceeded g ext d req then "exceeded" else "ok")) none) := by
  refine ⟨⟨rfl, rfl⟩, ⟨rfl, rfl⟩, ⟨rfl, rfl⟩, rfl, ?_, ?_⟩
  · intro u hu
    unfold penaltyTtlSecs
    split <;> simp_all
  · intro g ext req n d ht hp
    simp [nodeStep, ht, hp]

/-- Witness for C8: the hour window with limit 150 yields a per-minute budget
of 2, the minute unit gets the 120-second penalty, and a concrete rateLimit
node dispatches to the `ok` handle when the service does not report
"exceeded". -/
theorem rate_limit_window_policy_witness :
    (rpsLimit "hour" 150 = 2) ∧
    (penaltyTtlSecs "minute" = 120) ∧
    (nodeStep gAcy extD ⟨"rl2", "rateLimit", .rateLimit ⟨150, "hour", "ip", none⟩⟩
      reqD = .next (some "ok") none) :=
  ⟨((rate_limit_window_policy 150).2.2.1.2).trans (by decide),
   (rate_limit_window_policy 150).2.2.2.2.1 "minute" (by decide),
   by
    have h := (rate_limit_window_policy 150).2.2.2.2.2 gAcy extD reqD
      ⟨"rl2", "rateLimit", .rateLimit ⟨150, "hour", "ip", none⟩⟩
      ⟨150, "hour", "ip", none⟩ rfl rfl
    have hx : rateExceeded gAcy extD ⟨150, "hour", "ip", none⟩ reqD = false := by decide
    rw [h, hx]
    rfl⟩

/-! ## Claim C9: rate-limit key derivation -/

/-- Claim C9: the rate-limit key is derived from `key_by` as: `ip` resolves the
client IP through the native accessor, then the `fastly-client-ip` header,
then the leftmost trimmed `x-forwarded-for` entry, defaulting to `"unknown"`;
`fingerprint` takes the JA4 fingerprint, else JA3, else `"unknown"`;
`header` takes the configured header's value, else `"unknown"` (also when no
header name is configured); `path` takes the request path; any other `key_by`
value yields `"unknown"`. -/
theorem rate_limit_key_by (ext : Ext) (req : Request) (d : RateLimitNodeData) :
    (d.key_by = "ip" → get_rate_limit_key ext d req =
      ((req.clientIp.orElse fun _ => req.get_header_str "fastly-client-ip").orElse
        fun _ => (req.get_header_str "x-forwarded-for").map fun s =>
          trimStr (((splitOnChar s ',').head?).getD s)).getD "unknown") ∧
    (d.key_by = "fingerprint" → get_rate_limit_key ext d req =
      (((req.get_header_str "fastly-client-ja4").orElse fun _ =>
          req.get_header_str "tls-ja4").orElse fun _ =>
        (req.get_header_str "fastly-client-ja3-md5").orElse fun _ =>
          req.get_header_str "tls-ja3-md5").getD "unknown") ∧
    (∀ hn, d.key_by = "header" → d.header_name = some hn →
      get_rate_limit_key ext d req = (req.get_header_str hn).getD "unknown") ∧
    (d.key_by = "header" → d.header_name = none →
      get_rate_limit_key ext d req = "unknown") ∧
    (d.key_by = "path" → get_rate_limit_key ext d req = req.path) ∧
    (d.key_by ∉ (["ip", "fingerprint", "header", "path"] : List String) →
      get_rate_limit_key ext d req = "unknown") := by
  refine ⟨?_, ?_, ?_, ?_, ?_, ?_⟩
  · intro hk
    simp only [get_rate_limit_key, hk]
    rfl
  · intro hk
    simp only [get_rate_limit_key, hk]
    rfl
  · intro hn hk hh
    simp only [get_rate_limit_key, hk, hh]
  · intro hk hh
    simp only [get_rate_limit_key, hk, hh]
  · intro hk
    simp only [get_rate_limit_key, hk]
  · intro hk
    unfold get_rate_limit_key
    split
    · next heq => exact absurd (by rw [heq]; simp) hk
    · next heq => exact absurd (by rw [heq]; simp) hk
    · next heq => exact absurd (by rw [heq]; simp) hk
    · next heq => exact absurd (by rw [heq]; simp) hk
    · rfl

/-- Witness for C9: every `key_by` mode at the concrete request `reqD`. -/
theorem rate_limit_key_by_witness :
    (get_rate_limit_key extD ⟨10, "minute", "ip", none⟩ reqD = "203.0.113.7") ∧
    (get_rate_limit_key extD ⟨10, "minute", "fingerprint", none⟩ reqD = "unknown") ∧
    (get_rate_limit_key extD ⟨10, "minute", "header", some "host"⟩ reqD =
      "example.com") ∧
    (get_rate_limit_key extD ⟨10, "minute", "header", none⟩ reqD = "unknown") ∧
    (get_rate_limit_key extD ⟨10, "minute", "path", none⟩ reqD = "/index.html") ∧
    (get_rate_limit_key extD ⟨10, "minute", "session", none⟩ reqD = "unknown") :=
  ⟨((rate_limit_key_by extD reqD ⟨10, "minute", "ip", none⟩).1 rfl).trans (by decide),
   ((rate_limit_key_by extD reqD ⟨10, "minute", "fingerprint", none⟩).2.1 rfl).trans
     (by decide),
   ((rate_limit_key_by extD reqD ⟨10, "minute", "header", some "host"⟩).2.2.1
     "host" rfl rfl).trans (by decide),
   (rate_limit_key_by extD reqD ⟨10, "minute", "header", none⟩).2.2.2.1 rfl rfl,
   (rate_limit_key_by extD reqD ⟨10, "minute", "path", none⟩).2.2.2.2.1 rfl,
   (rate_limit_key_by extD reqD ⟨10, "minute", "session", none⟩).2.2.2.2.2
     (by decide)⟩

/-! ## Claim C10: the `field == "header"` fallback without a header name -/

/-- Claim C10: a condition whose `field` is `"header"` but whose `headerName`
is absent resolves its field value through `get_field_value "header"`, which
hits the canonical-field fallback arm and performs a direct lookup of a
header literally named `"header"` — the condition is not treated as
malformed, nor its value as missing. -/
theorem condition_header_field_fallback (ext : Ext) (req : Request)
    (d : ConditionNodeData) (hf : d.field = "header") (hn : d.header_name = none) :
    evaluate_condition ext d req =
      applyOperator ext d.operator d.value (req.get_header_str "header") ∧
    get_field_value ext "header" req = req.get_header_str "header" := by
  constructor
  · unfold evaluate_condition
    simp only [hf, hn]
    rfl
  · rfl

/-- Witness for C10: on `reqD`, which carries a header literally named
`header` with value `plain`, such a condition with operator `equals`
matches that value. -/
theorem condition_header_field_fallback_witness :
    (evaluate_condition extD ⟨"header", "equals", "plain", none⟩ reqD =
      applyOperator extD "equals" "plain" (reqD.get_header_str "header")) ∧
    (get_field_value extD "header" reqD = reqD.get_header_str "header") ∧
    (evaluate_condition extD ⟨"header", "equals", "plain", none⟩ reqD = true) :=
  ⟨(condition_header_field_fallback extD reqD ⟨"header", "equals", "plain", none⟩
      rfl rfl).1,
   (condition_header_field_fallback extD reqD ⟨"header", "equals", "plain", none⟩
      rfl rfl).2,
   by decide⟩

end VCE
